import Mathlib

/-!
# Verification of the Coinbase relay server (`server.ts` / `ws-socket.ts`)

A shallow embedding, in Lean 4, of the `CoinbaseRelay` class: a Socket.IO
server that relays ticker data from a single upstream Coinbase WebSocket to
downstream subscriber sockets.  JavaScript `Map<string, Set<string>>` values
are modelled as association lists of `(String, List String)`; JS `Set` values
as duplicate-free `List String` in insertion order.  The upstream WebSocket
handle `this.coinbaseWs` (`WebSocket | null` with a `readyState`) is modelled
as `Option ReadyState`.  Calls to `ws.send` and `socket.emit` are modelled by
collecting the sent messages in lists.
-/

namespace CoinbaseRelay

/-- JS `Map.get(k)`: the value at the first matching key, if present. -/
def mapGet : List (String × List String) → String → Option (List String)
  | [], _ => none
  | (k, v) :: rest, key => if k == key then some v else mapGet rest key

/-- JS `Map.has(k)`. -/
def mapHas (m : List (String × List String)) (key : String) : Bool :=
  (mapGet m key).isSome

/-- JS `Map.set(k, v)`: replace the value at an existing key, else append. -/
def mapSet : List (String × List String) → String → List String → List (String × List String)
  | [], key, v => [(key, v)]
  | (k, w) :: rest, key, v =>
      if k == key then (key, v) :: rest else (k, w) :: mapSet rest key v

/-- JS `Map.delete(k)`. -/
def mapDelete : List (String × List String) → String → List (String × List String)
  | [], _ => []
  | (k, w) :: rest, key =>
      if k == key then mapDelete rest key else (k, w) :: mapDelete rest key

/-- JS `Set.has(x)`. -/
def setHas : List String → String → Bool
  | [], _ => false
  | a :: s, x => if a == x then true else setHas s x

/-- JS `Set.add(x)`: append if absent (insertion order preserved). -/
def setAdd (s : List String) (x : String) : List String :=
  if setHas s x then s else s ++ [x]

/-- JS `Set.delete(x)`. -/
def setDelete : List String → String → List String
  | [], _ => []
  | a :: s, x => if a == x then setDelete s x else a :: setDelete s x

/-- `true` when the list holds pairwise distinct strings (a JS `Set` snapshot). -/
def listNodup : List String → Bool
  | [] => true
  | a :: s => !(setHas s a) && listNodup s

/-- The two subscription maps of `CoinbaseRelay`:
`subscriptions : Map<productId, Set<socketId>>` and
`socketSubscriptions : Map<socketId, Set<productId>>`. -/
structure Registry where
  subscriptions : List (String × List String)
  socketSubscriptions : List (String × List String)
deriving DecidableEq, Repr

/-- The initial state: both maps empty (`new Map()`). -/
def Registry.empty : Registry := ⟨[], []⟩

/-- `readyState` of a `ws` WebSocket. -/
inductive ReadyState where
  | CONNECTING
  | OPEN
  | CLOSING
  | CLOSED
deriving DecidableEq, Repr

/-- An upstream JSON message built by `subscribeToCoinbase` /
`unsubscribeFromCoinbase` and passed to `this.coinbaseWs.send`. -/
structure UpstreamMsg where
  type : String
  product_ids : List String
  channels : List String
deriving DecidableEq, Repr

/-- The message `{ type: "subscribe", product_ids: [productId], channels: ["ticker"] }`. -/
def mkSubscribeMsg (productId : String) : UpstreamMsg :=
  ⟨"subscribe", [productId], ["ticker"]⟩

/-- The message `{ type: "unsubscribe", product_ids: [productId], channels: ["ticker"] }`. -/
def mkUnsubscribeMsg (productId : String) : UpstreamMsg :=
  ⟨"unsubscribe", [productId], ["ticker"]⟩

/-- `addSubscription(socketId, productId)` (ws-socket.ts lines 172-184):
insert into `subscriptions[productId]` and `socketSubscriptions[socketId]`,
creating the sets on demand. -/
def addSubscription (st : Registry) (socketId productId : String) : Registry :=
  let subs := (mapGet st.subscriptions productId).getD []
  let sockSubs := (mapGet st.socketSubscriptions socketId).getD []
  { subscriptions := mapSet st.subscriptions productId (setAdd subs socketId)
    socketSubscriptions := mapSet st.socketSubscriptions socketId (setAdd sockSubs productId) }

/-- `removeSubscription(socketId, productId)` (ws-socket.ts lines 186-204):
delete from both sets, dropping a key whose set becomes empty. -/
def removeSubscription (st : Registry) (socketId productId : String) : Registry :=
  let subscriptions :=
    match mapGet st.subscriptions productId with
    | none => st.subscriptions
    | some subscribers =>
        let subscribers := setDelete subscribers socketId
        if subscribers.length == 0 then mapDelete st.subscriptions productId
        else mapSet st.subscriptions productId subscribers
  let socketSubscriptions :=
    match mapGet st.socketSubscriptions socketId with
    | none => st.socketSubscriptions
    | some products =>
        let products := setDelete products productId
        if products.length == 0 then mapDelete st.socketSubscriptions socketId
        else mapSet st.socketSubscriptions socketId products
  { subscriptions := subscriptions, socketSubscriptions := socketSubscriptions }

/-- `subscribeToCoinbase(productId)` (ws-socket.ts lines 159-170): send a
subscribe message iff the upstream socket exists and is `OPEN`; the messages
handed to `this.coinbaseWs.send` are the result list. -/
def subscribeToCoinbase (ws : Option ReadyState) (productId : String) : List UpstreamMsg :=
  match ws with
  | none => []
  | some rs => if !(rs == ReadyState.OPEN) then [] else [mkSubscribeMsg productId]

/-- `unsubscribeFromCoinbase(productId)` (ws-socket.ts lines 224-239): send an
unsubscribe message iff the product has no subscribers left and the upstream
socket is `OPEN`. -/
def unsubscribeFromCoinbase (st : Registry) (ws : Option ReadyState) (productId : String) :
    List UpstreamMsg :=
  let hasNoSubscribers : Bool :=
    match mapGet st.subscriptions productId with
    | none => true
    | some subs => subs.length == 0
  if hasNoSubscribers && (ws == some ReadyState.OPEN) then [mkUnsubscribeMsg productId] else []

/-- The `socket.on("subscribe", ...)` handler (ws-socket.ts lines 52-56):
`addSubscription` then `subscribeToCoinbase`. -/
def onSubscribe (st : Registry) (ws : Option ReadyState) (socketId productId : String) :
    Registry × List UpstreamMsg :=
  let st' := addSubscription st socketId productId
  (st', subscribeToCoinbase ws productId)

/-- The `socket.on("unsubscribe", ...)` handler (ws-socket.ts lines 58-62):
`removeSubscription` then `unsubscribeFromCoinbase`. -/
def onUnsubscribe (st : Registry) (ws : Option ReadyState) (socketId productId : String) :
    Registry × List UpstreamMsg :=
  let st' := removeSubscription st socketId productId
  (st', unsubscribeFromCoinbase st' ws productId)

/-- The `productIds.forEach` loop of `cleanupClient` (ws-socket.ts lines
210-218): remove each product, and when the product is left with no
subscribers call `unsubscribeFromCoinbase`. -/
def cleanupFold (ws : Option ReadyState) (socketId : String) :
    List String → Registry → Registry × List UpstreamMsg
  | [], st => (st, [])
  | productId :: rest, st =>
      let st1 := removeSubscription st socketId productId
      let needUnsub : Bool :=
        match mapGet st1.subscriptions productId with
        | none => true
        | some subs => subs.length == 0
      let msgs1 := if needUnsub then unsubscribeFromCoinbase st1 ws productId else []
      let res := cleanupFold ws socketId rest st1
      (res.1, msgs1 ++ res.2)

/-- `cleanupClient(socketId)` (ws-socket.ts lines 206-222): run the loop over
`Array.from(socketSubscriptions.get(socketId) || [])`, then delete the
socket's own record. -/
def cleanupClient (st : Registry) (ws : Option ReadyState) (socketId : String) :
    Registry × List UpstreamMsg :=
  let productIds := (mapGet st.socketSubscriptions socketId).getD []
  let res := cleanupFold ws socketId productIds st
  ({ res.1 with socketSubscriptions := mapDelete res.1.socketSubscriptions socketId }, res.2)

/-- One downstream request hitting the registry: the three socket events
`subscribe`, `unsubscribe`, `disconnect` of `setupSocketHandlers`. -/
inductive Op where
  | sub (socketId productId : String)
  | unsub (socketId productId : String)
  | disconnect (socketId : String)

/-- The registry after one socket event. -/
def applyOp (ws : Option ReadyState) (st : Registry) : Op → Registry
  | .sub sock pid => (onSubscribe st ws sock pid).1
  | .unsub sock pid => (onUnsubscribe st ws sock pid).1
  | .disconnect sock => (cleanupClient st ws sock).1

/-- The registry reached from the empty initial state by a sequence of socket
events. -/
def runOps (ws : Option ReadyState) (ops : List Op) : Registry :=
  ops.foldl (applyOp ws) Registry.empty

/-- `socketId ∈ subscriptions[productId]` — membership in the by-symbol map. -/
def inBySymbol (st : Registry) (productId socketId : String) : Bool :=
  setHas ((mapGet st.subscriptions productId).getD []) socketId

/-- `productId ∈ socketSubscriptions[socketId]` — membership in the
by-subscriber map. -/
def inBySubscriber (st : Registry) (socketId productId : String) : Bool :=
  setHas ((mapGet st.socketSubscriptions socketId).getD []) productId

/-- The two maps are mirror images of one another. -/
def Symmetric (st : Registry) : Prop :=
  ∀ productId socketId, inBySymbol st productId socketId = inBySubscriber st socketId productId

/-- `false` exactly on a present-but-empty map entry. -/
def entryNonEmpty : Option (List String) → Bool
  | some [] => false
  | _ => true

/-- `this.maxReconnectAttempts` (ws-socket.ts line 31). -/
def maxReconnectAttempts : Nat := 5

/-- `this.reconnectDelay` (ws-socket.ts line 32). -/
def reconnectDelay : Nat := 5000

/-- The connection-related fields of `CoinbaseRelay`: the upstream socket
handle (with its `readyState`) and `this.reconnectAttempts`. -/
structure ConnState where
  coinbaseWs : Option ReadyState
  reconnectAttempts : Nat
deriving DecidableEq, Repr

/-- `initializeCoinbaseWebSocket` (ws-socket.ts lines 77-81), synchronous
part: return unchanged if `this.coinbaseWs?.readyState === WebSocket.OPEN`;
otherwise construct a fresh `WebSocket` (which starts in `CONNECTING`).  The
boolean records whether `new WebSocket(...)` was executed. -/
def initializeCoinbaseWebSocket (c : ConnState) : ConnState × Bool :=
  if c.coinbaseWs == some ReadyState.OPEN then (c, false)
  else ({ c with coinbaseWs := some ReadyState.CONNECTING }, true)

/-- The `this.coinbaseWs.on("close", ...)` handler (ws-socket.ts lines
113-127): if `reconnectAttempts < maxReconnectAttempts`, schedule a reconnect
timer after `reconnectDelay * 2 ** reconnectAttempts`; the result is the
scheduled delay, `none` when nothing is scheduled. -/
def onUpstreamClose (c : ConnState) : Option Nat :=
  if c.reconnectAttempts < maxReconnectAttempts then
    some (reconnectDelay * 2 ^ c.reconnectAttempts)
  else none

/-- The `setTimeout` callback of the close handler (ws-socket.ts lines
122-125): increment `reconnectAttempts`, then `initializeCoinbaseWebSocket`. -/
def onReconnectTimerFire (c : ConnState) : ConnState × Bool :=
  initializeCoinbaseWebSocket { c with reconnectAttempts := c.reconnectAttempts + 1 }

/-- A run of `n` consecutive upstream close events, the scheduled reconnect
timer firing (and the resulting connection attempt failing) between any two of
them.  Collects the scheduled delays in order; stops as soon as a close event
schedules nothing. -/
def runCloses : Nat → ConnState → ConnState × List Nat
  | 0, c => (c, [])
  | n + 1, c =>
      match onUpstreamClose c with
      | none => (c, [])
      | some d =>
          let c' := (onReconnectTimerFire c).1
          let res := runCloses n c'
          (res.1, d :: res.2)

/-- One entry of the `channels` array of an inbound `subscriptions` message. -/
structure Channel where
  name : String
  product_ids : Option (List String)
deriving DecidableEq, Repr

/-- An inbound upstream JSON object as far as the relay inspects it: the
`type`, `product_id` and `channels` fields may each be absent. -/
structure CoinbaseMessage where
  type : Option String
  product_id : Option String
  channels : Option (List Channel)
deriving DecidableEq, Repr

/-- JS truthiness of an optional string field: `undefined` and `""` are falsy. -/
def truthyStr : Option String → Bool
  | none => false
  | some s => !(s == "")

/-- `handleTickerMessage(message)` (ws-socket.ts lines 130-140): guard on a
falsy `product_id`, look up the subscribers, and emit a `"ticker"` event to
each subscriber whose socket is still connected (`io.sockets.sockets.get`
returning a socket is modelled by membership in `live`).  The result is the
list of `(socketId, eventName)` emissions, in order. -/
def handleTickerMessage (st : Registry) (live : List String) (product_id : Option String) :
    List (String × String) :=
  match product_id with
  | none => []
  | some pid =>
      if pid == "" then []
      else
        match mapGet st.subscriptions pid with
        | none => []
        | some subscribers =>
            if subscribers.length == 0 then []
            else (subscribers.filter (fun sock => setHas live sock)).map
              (fun sock => (sock, "ticker"))

/-- `handleSubscriptionMessage(message)` (ws-socket.ts lines 142-157): for
every product id listed in the `channels` entries, emit
`"subscription-confirmed"` to each connected subscriber of that product. -/
def handleSubscriptionMessage (st : Registry) (live : List String)
    (channels : Option (List Channel)) : List (String × String) :=
  match channels with
  | none => []
  | some chs =>
      let productIds := (chs.map (fun c => c.product_ids.getD [])).flatten
      (productIds.map (fun pid =>
        match mapGet st.subscriptions pid with
        | none => []
        | some subscribers =>
            if subscribers.length == 0 then []
            else (subscribers.filter (fun sock => setHas live sock)).map
              (fun sock => (sock, "subscription-confirmed")))).flatten

/-- The `this.coinbaseWs.on("message", ...)` handler (ws-socket.ts lines
89-102).  `raw = none` models a payload on which `JSON.parse` throws — the
`catch` block logs and returns.  Otherwise dispatch on `parsed.type`, with
JS-truthiness of `parsed.product_id` guarding the ticker branch.  Returns the
(unchanged) registry and the downstream emissions. -/
def onUpstreamMessage (st : Registry) (live : List String) (raw : Option CoinbaseMessage) :
    Registry × List (String × String) :=
  match raw with
  | none => (st, [])
  | some parsed =>
      if parsed.type == some "ticker" && truthyStr parsed.product_id then
        (st, handleTickerMessage st live parsed.product_id)
      else if parsed.type == some "subscriptions" then
        (st, handleSubscriptionMessage st live parsed.channels)
      else (st, [])

/-- All subscribers recorded for `productId` are still connected.  (`forEach`
over the subscriber set only emits through sockets found in
`io.sockets.sockets`; the relay's disconnect cleanup keeps registry membership
a subset of the connected sockets.) -/
def allLive (st : Registry) (live : List String) (productId : String) : Bool :=
  ((mapGet st.subscriptions productId).getD []).all (fun sock => setHas live sock)

/-! ## Lemmas about the map and set primitives -/

theorem mapGet_mapSet_self (m : List (String × List String)) (k : String) (v : List String) :
    mapGet (mapSet m k v) k = some v := by
  induction m with
  | nil => simp [mapSet, mapGet]
  | cons p rest ih =>
      obtain ⟨k0, w⟩ := p
      by_cases h : (k0 == k) = true
      · simp [mapSet, h, mapGet]
      · simp only [Bool.not_eq_true] at h
        simp [mapSet, h, mapGet, ih]

theorem mapGet_mapSet_ne (m : List (String × List String)) (k k' : String) (v : List String)
    (hne : (k == k') = false) : mapGet (mapSet m k v) k' = mapGet m k' := by
  induction m with
  | nil => simp [mapSet, mapGet, hne]
  | cons p rest ih =>
      obtain ⟨k0, w⟩ := p
      by_cases h : (k0 == k) = true
      · have hk0 : k0 = k := eq_of_beq h
        subst hk0
        simp [mapSet, mapGet, hne]
      · simp only [Bool.not_eq_true] at h
        simp [mapSet, h, mapGet, ih]

theorem mapGet_mapDelete_self (m : List (String × List String)) (k : String) :
    mapGet (mapDelete m k) k = none := by
  induction m with
  | nil => simp [mapDelete, mapGet]
  | cons p rest ih =>
      obtain ⟨k0, w⟩ := p
      by_cases h : (k0 == k) = true
      · simp [mapDelete, h, ih]
      · simp only [Bool.not_eq_true] at h
        simp [mapDelete, h, mapGet, ih]

theorem mapGet_mapDelete_ne (m : List (String × List String)) (k k' : String)
    (hne : (k == k') = false) : mapGet (mapDelete m k) k' = mapGet m k' := by
  induction m with
  | nil => simp [mapDelete]
  | cons p rest ih =>
      obtain ⟨k0, w⟩ := p
      by_cases h : (k0 == k) = true
      · have hk0 : k0 = k := eq_of_beq h
        subst hk0
        simp [mapDelete, mapGet, hne, ih]
      · simp only [Bool.not_eq_true] at h
        simp [mapDelete, h, mapGet, ih]

theorem setHas_append (s t : List String) (x : String) :
    setHas (s ++ t) x = (setHas s x || setHas t x) := by
  induction s with
  | nil => simp [setHas]
  | cons a s ih =>
      by_cases h : (a == x) = true
      · simp [setHas, h]
      · simp only [Bool.not_eq_true] at h
        simp [setHas, h, ih]

theorem beq_false_of_ne (x y : String) (h : ¬x = y) : (x == y) = false := by
  by_cases hb : (x == y) = true
  · exact absurd (eq_of_beq hb) h
  · simpa using hb

theorem setHas_setAdd (s : List String) (x y : String) :
    setHas (setAdd s x) y = (setHas s y || x == y) := by
  unfold setAdd
  by_cases h : setHas s x = true
  · simp only [h, if_true]
    by_cases hxy : x = y
    · subst hxy
      simp [h]
    · simp [beq_false_of_ne x y hxy]
  · simp only [Bool.not_eq_true] at h
    simp only [h, Bool.false_eq_true, if_false, setHas_append]
    by_cases hxy : x = y
    · subst hxy
      simp [setHas]
    · simp [setHas, beq_false_of_ne x y hxy]

theorem setHas_setDelete (s : List String) (x y : String) :
    setHas (setDelete s x) y = (setHas s y && !(x == y)) := by
  induction s with
  | nil => simp [setDelete, setHas]
  | cons a s ih =>
      by_cases hax : a = x
      · subst hax
        by_cases hay : a = y
        · subst hay
          simp [setDelete, setHas, ih]
        · simp [setDelete, setHas, ih, beq_false_of_ne a y hay]
      · by_cases hay : a = y
        · subst hay
          simp [setDelete, setHas, beq_false_of_ne a x hax,
            beq_false_of_ne x a (fun hh => hax hh.symm)]
        · simp [setDelete, setHas, ih, beq_false_of_ne a x hax, beq_false_of_ne a y hay]

theorem setHas_eq_false_of_mem (s : List String) (x a : String)
    (hs : setHas s x = false) (ha : a ∈ s) : (a == x) = false := by
  induction s with
  | nil => cases ha
  | cons b s ih =>
      by_cases hbx : (b == x) = true
      · simp [setHas, hbx] at hs
      · simp only [Bool.not_eq_true] at hbx
        simp only [setHas, hbx, if_false] at hs
        rcases List.mem_cons.mp ha with h | h
        · subst h; exact hbx
        · exact ih hs h

theorem setHas_eq_true_iff_mem (s : List String) (x : String) :
    setHas s x = true ↔ x ∈ s := by
  induction s with
  | nil => simp [setHas]
  | cons a s ih =>
      by_cases hax : (a == x) = true
      · have : a = x := eq_of_beq hax
        subst this
        simp [setHas, hax]
      · simp only [Bool.not_eq_true] at hax
        have : ¬(x = a) := by
          intro h
          subst h
          simp [BEq.refl] at hax
        simp [setHas, hax, ih, this]

theorem setAdd_ne_nil (s : List String) (x : String) : setAdd s x ≠ [] := by
  unfold setAdd
  by_cases h : setHas s x = true
  · simp only [h, if_true]
    intro hnil
    subst hnil
    simp [setHas] at h
  · simp only [Bool.not_eq_true] at h
    simp [h]

/-! ## Characterizations of the registry operations -/

theorem mapGet_addSubscription_subs_self (st : Registry) (sock sym : String) :
    mapGet (addSubscription st sock sym).subscriptions sym =
      some (setAdd ((mapGet st.subscriptions sym).getD []) sock) := by
  unfold addSubscription
  exact mapGet_mapSet_self _ _ _

theorem mapGet_addSubscription_subs_ne (st : Registry) (sock sym sym' : String)
    (h : (sym == sym') = false) :
    mapGet (addSubscription st sock sym).subscriptions sym' = mapGet st.subscriptions sym' := by
  unfold addSubscription
  exact mapGet_mapSet_ne _ _ _ _ h

theorem mapGet_addSubscription_sockSubs_self (st : Registry) (sock sym : String) :
    mapGet (addSubscription st sock sym).socketSubscriptions sock =
      some (setAdd ((mapGet st.socketSubscriptions sock).getD []) sym) := by
  unfold addSubscription
  exact mapGet_mapSet_self _ _ _

theorem mapGet_addSubscription_sockSubs_ne (st : Registry) (sock sym sock' : String)
    (h : (sock == sock') = false) :
    mapGet (addSubscription st sock sym).socketSubscriptions sock' =
      mapGet st.socketSubscriptions sock' := by
  unfold addSubscription
  exact mapGet_mapSet_ne _ _ _ _ h

theorem mapGet_removeSubscription_subs_self (st : Registry) (sock sym : String) :
    mapGet (removeSubscription st sock sym).subscriptions sym =
      match mapGet st.subscriptions sym with
      | none => none
      | some subs =>
          if (setDelete subs sock).length == 0 then none else some (setDelete subs sock) := by
  unfold removeSubscription
  cases h : mapGet st.subscriptions sym with
  | none => simp [h]
  | some subs =>
      simp only [h]
      by_cases hlen : ((setDelete subs sock).length == 0) = true
      · simp [hlen, mapGet_mapDelete_self]
      · simp only [Bool.not_eq_true] at hlen
        simp [hlen, mapGet_mapSet_self]

theorem mapGet_removeSubscription_subs_ne (st : Registry) (sock sym sym' : String)
    (hne : (sym == sym') = false) :
    mapGet (removeSubscription st sock sym).subscriptions sym' =
      mapGet st.subscriptions sym' := by
  unfold removeSubscription
  cases h : mapGet st.subscriptions sym with
  | none => simp [h]
  | some subs =>
      simp only [h]
      by_cases hlen : ((setDelete subs sock).length == 0) = true
      · simp [hlen, mapGet_mapDelete_ne _ _ _ hne]
      · simp only [Bool.not_eq_true] at hlen
        simp [hlen, mapGet_mapSet_ne _ _ _ _ hne]

theorem mapGet_removeSubscription_sockSubs_self (st : Registry) (sock sym : String) :
    mapGet (removeSubscription st sock sym).socketSubscriptions sock =
      match mapGet st.socketSubscriptions sock with
      | none => none
      | some products =>
          if (setDelete products sym).length == 0 then none
          else some (setDelete products sym) := by
  unfold removeSubscription
  cases h : mapGet st.socketSubscriptions sock with
  | none => simp [h]
  | some products =>
      simp only [h]
      by_cases hlen : ((setDelete products sym).length == 0) = true
      · simp [hlen, mapGet_mapDelete_self]
      · simp only [Bool.not_eq_true] at hlen
        simp [hlen, mapGet_mapSet_self]

theorem mapGet_removeSubscription_sockSubs_ne (st : Registry) (sock sym sock' : String)
    (hne : (sock == sock') = false) :
    mapGet (removeSubscription st sock sym).socketSubscriptions sock' =
      mapGet st.socketSubscriptions sock' := by
  unfold removeSubscription
  cases h : mapGet st.socketSubscriptions sock with
  | none => simp [h]
  | some products =>
      simp only [h]
      by_cases hlen : ((setDelete products sym).length == 0) = true
      · simp [hlen, mapGet_mapDelete_ne _ _ _ hne]
      · simp only [Bool.not_eq_true] at hlen
        simp [hlen, mapGet_mapSet_ne _ _ _ _ hne]

theorem inBySymbol_addSubscription (st : Registry) (sock sym sym' sock' : String) :
    inBySymbol (addSubscription st sock sym) sym' sock' =
      (inBySymbol st sym' sock' || ((sym == sym') && (sock == sock'))) := by
  by_cases hsym : sym = sym'
  · subst hsym
    unfold inBySymbol
    rw [mapGet_addSubscription_subs_self]
    simp [setHas_setAdd]
  · unfold inBySymbol
    rw [mapGet_addSubscription_subs_ne st sock sym sym' (beq_false_of_ne _ _ hsym)]
    simp [beq_false_of_ne _ _ hsym]

theorem inBySubscriber_addSubscription (st : Registry) (sock sym sock' sym' : String) :
    inBySubscriber (addSubscription st sock sym) sock' sym' =
      (inBySubscriber st sock' sym' || ((sock == sock') && (sym == sym'))) := by
  by_cases hsock : sock = sock'
  · subst hsock
    unfold inBySubscriber
    rw [mapGet_addSubscription_sockSubs_self]
    simp [setHas_setAdd]
  · unfold inBySubscriber
    rw [mapGet_addSubscription_sockSubs_ne st sock sym sock' (beq_false_of_ne _ _ hsock)]
    simp [beq_false_of_ne _ _ hsock]

theorem inBySymbol_removeSubscription (st : Registry) (sock sym sym' sock' : String) :
    inBySymbol (removeSubscription st sock sym) sym' sock' =
      (inBySymbol st sym' sock' && !((sym == sym') && (sock == sock'))) := by
  by_cases hsym : sym = sym'
  · subst hsym
    unfold inBySymbol
    rw [mapGet_removeSubscription_subs_self]
    cases h : mapGet st.subscriptions sym with
    | none => simp [setHas]
    | some subs =>
        by_cases hlen : ((setDelete subs sock).length == 0) = true
        · have hnil : setDelete subs sock = [] := by
            simpa using List.length_eq_zero.mp (by simpa using hlen)
          have := setHas_setDelete subs sock sock'
          rw [hnil] at this
          simp only [hlen, if_true]
          simp [setHas, ← this]
        · simp only [Bool.not_eq_true] at hlen
          simp [hlen, setHas_setDelete]
  · unfold inBySymbol
    rw [mapGet_removeSubscription_subs_ne st sock sym sym' (beq_false_of_ne _ _ hsym)]
    simp [beq_false_of_ne _ _ hsym]

theorem inBySubscriber_removeSubscription (st : Registry) (sock sym sock' sym' : String) :
    inBySubscriber (removeSubscription st sock sym) sock' sym' =
      (inBySubscriber st sock' sym' && !((sock == sock') && (sym == sym'))) := by
  by_cases hsock : sock = sock'
  · subst hsock
    unfold inBySubscriber
    rw [mapGet_removeSubscription_sockSubs_self]
    cases h : mapGet st.socketSubscriptions sock with
    | none => simp [setHas]
    | some products =>
        by_cases hlen : ((setDelete products sym).length == 0) = true
        · have hnil : setDelete products sym = [] := by
            simpa using List.length_eq_zero.mp (by simpa using hlen)
          have := setHas_setDelete products sym sym'
          rw [hnil] at this
          simp only [hlen, if_true]
          simp [setHas, ← this]
        · simp only [Bool.not_eq_true] at hlen
          simp [hlen, setHas_setDelete]
  · unfold inBySubscriber
    rw [mapGet_removeSubscription_sockSubs_ne st sock sym sock' (beq_false_of_ne _ _ hsock)]
    simp [beq_false_of_ne _ _ hsock]

/-! ## The cleanup loop -/

theorem setHas_cons (a : String) (s : List String) (x : String) :
    setHas (a :: s) x = ((a == x) || setHas s x) := by
  by_cases h : (a == x) = true
  · simp [setHas, h]
  · simp only [Bool.not_eq_true] at h
    simp [setHas, h]

theorem and_not_and_or (a b c d : Bool) :
    ((a && !(b && d)) && !(c && d)) = (a && !((b || c) && d)) := by
  revert a b c d
  decide

theorem and_not_or_and (a b c d : Bool) :
    ((a && !(d && b)) && !(d && c)) = (a && !(d && (b || c))) := by
  revert a b c d
  decide

theorem inBySymbol_cleanupFold (ws : Option ReadyState) (sock : String) (L : List String)
    (st : Registry) (p s : String) :
    inBySymbol (cleanupFold ws sock L st).1 p s =
      (inBySymbol st p s && !(setHas L p && (sock == s))) := by
  induction L generalizing st with
  | nil => simp [cleanupFold, setHas]
  | cons pid rest ih =>
      simp only [cleanupFold]
      rw [ih, inBySymbol_removeSubscription, setHas_cons]
      exact and_not_and_or _ _ _ _

theorem inBySubscriber_cleanupFold (ws : Option ReadyState) (sock : String) (L : List String)
    (st : Registry) (s p : String) :
    inBySubscriber (cleanupFold ws sock L st).1 s p =
      (inBySubscriber st s p && !((sock == s) && setHas L p)) := by
  induction L generalizing st with
  | nil => simp [cleanupFold, setHas]
  | cons pid rest ih =>
      simp only [cleanupFold]
      rw [ih, inBySubscriber_removeSubscription, setHas_cons]
      exact and_not_or_and _ _ _ _

theorem cleanupClient_fst (st : Registry) (ws : Option ReadyState) (sock : String) :
    (cleanupClient st ws sock).1 =
      { (cleanupFold ws sock ((mapGet st.socketSubscriptions sock).getD []) st).1 with
        socketSubscriptions :=
          mapDelete
            (cleanupFold ws sock ((mapGet st.socketSubscriptions sock).getD []) st).1.socketSubscriptions
            sock } := rfl

theorem inBySymbol_deleteSockRecord (st : Registry) (sock p s : String) :
    inBySymbol { st with socketSubscriptions := mapDelete st.socketSubscriptions sock } p s =
      inBySymbol st p s := rfl

theorem inBySubscriber_deleteSockRecord (st : Registry) (sock s p : String) :
    inBySubscriber { st with socketSubscriptions := mapDelete st.socketSubscriptions sock } s p =
      if sock = s then false else inBySubscriber st s p := by
  by_cases hs : sock = s
  · subst hs
    simp [inBySubscriber, mapGet_mapDelete_self, setHas]
  · simp [hs, inBySubscriber, mapGet_mapDelete_ne _ _ _ (beq_false_of_ne _ _ hs)]

/-! ## The symmetry invariant -/

theorem symmetric_empty : Symmetric Registry.empty := by
  intro p s
  simp [inBySymbol, inBySubscriber, Registry.empty, mapGet, setHas]

theorem symmetric_addSubscription (st : Registry) (sock sym : String) (h : Symmetric st) :
    Symmetric (addSubscription st sock sym) := by
  intro p s
  rw [inBySymbol_addSubscription, inBySubscriber_addSubscription, h p s,
    Bool.and_comm (sym == p) (sock == s)]

theorem symmetric_removeSubscription (st : Registry) (sock sym : String) (h : Symmetric st) :
    Symmetric (removeSubscription st sock sym) := by
  intro p s
  rw [inBySymbol_removeSubscription, inBySubscriber_removeSubscription, h p s,
    Bool.and_comm (sym == p) (sock == s)]

theorem symmetric_cleanupClient (st : Registry) (ws : Option ReadyState) (sock : String)
    (h : Symmetric st) : Symmetric (cleanupClient st ws sock).1 := by
  intro p s
  rw [cleanupClient_fst, inBySymbol_deleteSockRecord, inBySubscriber_deleteSockRecord,
    inBySymbol_cleanupFold, inBySubscriber_cleanupFold]
  by_cases hs : sock = s
  · subst hs
    rw [if_pos rfl, h p sock]
    have hy : inBySubscriber st sock p =
        setHas ((mapGet st.socketSubscriptions sock).getD []) p := rfl
    rw [hy]
    cases hb : setHas ((mapGet st.socketSubscriptions sock).getD []) p <;> simp [hb]
  · rw [if_neg hs, h p s, beq_false_of_ne sock s hs]
    simp

/-! ## The no-empty-entries invariant -/

/-- No present-but-empty entry in either map. -/
def NoEmptyEntries (st : Registry) : Prop :=
  ∀ k, entryNonEmpty (mapGet st.subscriptions k) = true ∧
    entryNonEmpty (mapGet st.socketSubscriptions k) = true

theorem entryNonEmpty_some_of_length_ne (l : List String) (h : ¬l.length = 0) :
    entryNonEmpty (some l) = true := by
  cases l with
  | nil => simp at h
  | cons a s => rfl

theorem entryNonEmpty_some_of_ne_nil (l : List String) (h : l ≠ []) :
    entryNonEmpty (some l) = true := by
  cases l with
  | nil => exact absurd rfl h
  | cons a s => rfl

theorem noEmpty_empty : NoEmptyEntries Registry.empty := by
  intro k
  exact ⟨rfl, rfl⟩

theorem noEmpty_addSubscription (st : Registry) (sock sym : String) (h : NoEmptyEntries st) :
    NoEmptyEntries (addSubscription st sock sym) := by
  intro k
  constructor
  · by_cases hk : sym = k
    · subst hk
      rw [mapGet_addSubscription_subs_self]
      exact entryNonEmpty_some_of_ne_nil _ (setAdd_ne_nil _ _)
    · rw [mapGet_addSubscription_subs_ne _ _ _ _ (beq_false_of_ne _ _ hk)]
      exact (h k).1
  · by_cases hk : sock = k
    · subst hk
      rw [mapGet_addSubscription_sockSubs_self]
      exact entryNonEmpty_some_of_ne_nil _ (setAdd_ne_nil _ _)
    · rw [mapGet_addSubscription_sockSubs_ne _ _ _ _ (beq_false_of_ne _ _ hk)]
      exact (h k).2

theorem noEmpty_removeSubscription (st : Registry) (sock sym : String) (h : NoEmptyEntries st) :
    NoEmptyEntries (removeSubscription st sock sym) := by
  intro k
  constructor
  · by_cases hk : sym = k
    · subst hk
      rw [mapGet_removeSubscription_subs_self]
      cases hg : mapGet st.subscriptions sym with
      | none => rfl
      | some subs =>
          by_cases hlen : ((setDelete subs sock).length == 0) = true
          · simp [hlen, entryNonEmpty]
          · simp only [Bool.not_eq_true] at hlen
            simp only [hlen, Bool.false_eq_true, if_false]
            exact entryNonEmpty_some_of_length_ne _ (by simpa using hlen)
    · rw [mapGet_removeSubscription_subs_ne _ _ _ _ (beq_false_of_ne _ _ hk)]
      exact (h k).1
  · by_cases hk : sock = k
    · subst hk
      rw [mapGet_removeSubscription_sockSubs_self]
      cases hg : mapGet st.socketSubscriptions sock with
      | none => rfl
      | some products =>
          by_cases hlen : ((setDelete products sym).length == 0) = true
          · simp [hlen, entryNonEmpty]
          · simp only [Bool.not_eq_true] at hlen
            simp only [hlen, Bool.false_eq_true, if_false]
            exact entryNonEmpty_some_of_length_ne _ (by simpa using hlen)
    · rw [mapGet_removeSubscription_sockSubs_ne _ _ _ _ (beq_false_of_ne _ _ hk)]
      exact (h k).2

theorem noEmpty_cleanupFold (ws : Option ReadyState) (sock : String) (L : List String)
    (st : Registry) (h : NoEmptyEntries st) : NoEmptyEntries (cleanupFold ws sock L st).1 := by
  induction L generalizing st with
  | nil => exact h
  | cons pid rest ih =>
      simp only [cleanupFold]
      exact ih _ (noEmpty_removeSubscription _ _ _ h)

theorem noEmpty_cleanupClient (st : Registry) (ws : Option ReadyState) (sock : String)
    (h : NoEmptyEntries st) : NoEmptyEntries (cleanupClient st ws sock).1 := by
  rw [cleanupClient_fst]
  intro k
  have hf := noEmpty_cleanupFold ws sock ((mapGet st.socketSubscriptions sock).getD []) st h
  constructor
  · exact (hf k).1
  · show entryNonEmpty (mapGet (mapDelete _ sock) k) = true
    by_cases hk : sock = k
    · subst hk
      rw [mapGet_mapDelete_self]
      rfl
    · rw [mapGet_mapDelete_ne _ _ _ (beq_false_of_ne _ _ hk)]
      exact (hf k).2

/-! ## Invariants along any run -/

theorem symmetric_applyOp (ws : Option ReadyState) (st : Registry) (op : Op)
    (h : Symmetric st) : Symmetric (applyOp ws st op) := by
  cases op with
  | sub sock pid => exact symmetric_addSubscription st sock pid h
  | unsub sock pid => exact symmetric_removeSubscription st sock pid h
  | disconnect sock => exact symmetric_cleanupClient st ws sock h

theorem noEmpty_applyOp (ws : Option ReadyState) (st : Registry) (op : Op)
    (h : NoEmptyEntries st) : NoEmptyEntries (applyOp ws st op) := by
  cases op with
  | sub sock pid => exact noEmpty_addSubscription st sock pid h
  | unsub sock pid => exact noEmpty_removeSubscription st sock pid h
  | disconnect sock => exact noEmpty_cleanupClient st ws sock h

theorem symmetric_foldl (ws : Option ReadyState) (ops : List Op) (st : Registry)
    (h : Symmetric st) : Symmetric (ops.foldl (applyOp ws) st) := by
  induction ops generalizing st with
  | nil => exact h
  | cons op rest ih => exact ih _ (symmetric_applyOp ws st op h)

theorem noEmpty_foldl (ws : Option ReadyState) (ops : List Op) (st : Registry)
    (h : NoEmptyEntries st) : NoEmptyEntries (ops.foldl (applyOp ws) st) := by
  induction ops generalizing st with
  | nil => exact h
  | cons op rest ih => exact ih _ (noEmpty_applyOp ws st op h)

theorem symmetric_runOps (ws : Option ReadyState) (ops : List Op) : Symmetric (runOps ws ops) :=
  symmetric_foldl ws ops Registry.empty symmetric_empty

theorem noEmpty_runOps (ws : Option ReadyState) (ops : List Op) :
    NoEmptyEntries (runOps ws ops) :=
  noEmpty_foldl ws ops Registry.empty noEmpty_empty

/-! ## Upstream unsubscribe traffic of the cleanup loop -/

theorem unsubscribeFromCoinbase_open (st : Registry) (pid : String) :
    unsubscribeFromCoinbase st (some ReadyState.OPEN) pid =
      if (match mapGet st.subscriptions pid with
          | none => true
          | some subs => subs.length == 0) = true then [mkUnsubscribeMsg pid] else [] := by
  unfold unsubscribeFromCoinbase
  simp

theorem needUnsub_eq (st : Registry) (sock pid : String) :
    (match mapGet (removeSubscription st sock pid).subscriptions pid with
     | none => true
     | some subs => subs.length == 0) =
      ((setDelete ((mapGet st.subscriptions pid).getD []) sock).length == 0) := by
  rw [mapGet_removeSubscription_subs_self]
  cases hg : mapGet st.subscriptions pid with
  | none => simp [setDelete]
  | some subs =>
      by_cases hlen : ((setDelete subs sock).length == 0) = true
      · simp [hlen]
      · simp only [Bool.not_eq_true] at hlen
        simp [hlen]

theorem cleanupFold_msgs (sock : String) (L : List String) (st : Registry)
    (hnd : listNodup L = true) :
    (cleanupFold (some ReadyState.OPEN) sock L st).2 =
      (L.filter (fun pid =>
        (setDelete ((mapGet st.subscriptions pid).getD []) sock).length == 0)).map
        mkUnsubscribeMsg := by
  revert hnd
  induction L generalizing st with
  | nil =>
      intro hnd
      simp [cleanupFold]
  | cons pid rest ih =>
      intro hnd
      obtain ⟨hr, hnd'⟩ : setHas rest pid = false ∧ listNodup rest = true := by
        simpa [listNodup] using hnd
      simp only [cleanupFold]
      rw [unsubscribeFromCoinbase_open, needUnsub_eq, ih _ hnd']
      have hcong :
          rest.filter (fun pid' =>
            (setDelete ((mapGet (removeSubscription st sock pid).subscriptions pid').getD [])
              sock).length == 0) =
          rest.filter (fun pid' =>
            (setDelete ((mapGet st.subscriptions pid').getD []) sock).length == 0) := by
        apply List.filter_congr
        intro a ha
        have h1 : (a == pid) = false := setHas_eq_false_of_mem rest pid a hr ha
        have h2 : ¬pid = a := by
          intro he
          subst he
          simp at h1
        rw [mapGet_removeSubscription_subs_ne st sock pid a (beq_false_of_ne _ _ h2)]
      rw [hcong]
      by_cases hp : ((setDelete ((mapGet st.subscriptions pid).getD []) sock).length == 0) = true
      · simp [List.filter_cons, hp]
      · simp only [Bool.not_eq_true] at hp
        simp [List.filter_cons, hp]

theorem cleanupClient_snd (st : Registry) (ws : Option ReadyState) (sock : String) :
    (cleanupClient st ws sock).2 =
      (cleanupFold ws sock ((mapGet st.socketSubscriptions sock).getD []) st).2 := rfl

/-! ## Ticker fan-out -/

theorem setHas_filter (p : String → Bool) (l : List String) (x : String) :
    setHas (l.filter p) x = (setHas l x && p x) := by
  induction l with
  | nil => simp [setHas]
  | cons a s ih =>
      cases hpa : p a
      · by_cases hax : a = x
        · subst hax
          simp [List.filter_cons, hpa, ih, setHas_cons]
        · simp [List.filter_cons, hpa, ih, setHas_cons, beq_false_of_ne a x hax]
      · by_cases hax : a = x
        · subst hax
          simp [List.filter_cons, hpa, ih, setHas_cons]
        · simp [List.filter_cons, hpa, ih, setHas_cons, beq_false_of_ne a x hax]

/-! ## The claims -/

/-- Claim C1, as stated, is false of the code: `subscribeToCoinbase` sends a
subscribe message on every `subscribe` request while the upstream socket is
`OPEN` — it never consults the registry.  Concretely: after subscriber `"A"`
has subscribed to `"BTC-USD"`, subscriber `"B"`'s subscribe request still
sends an upstream subscribe message for `"BTC-USD"` (the claim says it sends
none). -/
theorem dup_subscribe_counterexample :
    (onSubscribe (onSubscribe Registry.empty (some ReadyState.OPEN) "A" "BTC-USD").1
      (some ReadyState.OPEN) "B" "BTC-USD").2 = [mkSubscribeMsg "BTC-USD"] := rfl

/-- Claim C1 amended: with the upstream socket `OPEN`, every subscribe request
sends exactly one upstream subscribe message for the requested symbol,
regardless of whether the symbol already has subscribers — so when A and then
B subscribe to the same symbol, each of the two requests sends one message
(two in total), not one. -/
theorem subscribe_sends_every_time (st : Registry) (a b s : String) :
    (onSubscribe st (some ReadyState.OPEN) a s).2 = [mkSubscribeMsg s] ∧
    (onSubscribe (onSubscribe st (some ReadyState.OPEN) a s).1
      (some ReadyState.OPEN) b s).2 = [mkSubscribeMsg s] :=
  ⟨rfl, rfl⟩

/-- Claim C2, as stated, is false of the code: `initializeCoinbaseWebSocket`
only returns early when `coinbaseWs?.readyState === OPEN`.  With the socket in
`CONNECTING` state it executes `new WebSocket(...)` — it opens a new
connection. -/
theorem connect_while_connecting_counterexample :
    (initializeCoinbaseWebSocket ⟨some ReadyState.CONNECTING, 0⟩).2 = true := rfl

/-- Claim C2 amended: `initializeCoinbaseWebSocket` is a no-op exactly when
the upstream socket exists and is `OPEN` (Connected); from every other state —
`CONNECTING`, `CLOSING`, `CLOSED`, or no socket at all — it opens a new
connection and the socket field becomes a fresh `CONNECTING` socket. -/
theorem connect_noop_only_when_open (n : Nat) :
    initializeCoinbaseWebSocket ⟨some ReadyState.OPEN, n⟩ =
      (⟨some ReadyState.OPEN, n⟩, false) ∧
    initializeCoinbaseWebSocket ⟨some ReadyState.CONNECTING, n⟩ =
      (⟨some ReadyState.CONNECTING, n⟩, true) ∧
    initializeCoinbaseWebSocket ⟨some ReadyState.CLOSING, n⟩ =
      (⟨some ReadyState.CONNECTING, n⟩, true) ∧
    initializeCoinbaseWebSocket ⟨some ReadyState.CLOSED, n⟩ =
      (⟨some ReadyState.CONNECTING, n⟩, true) ∧
    initializeCoinbaseWebSocket ⟨none, n⟩ = (⟨some ReadyState.CONNECTING, n⟩, true) :=
  ⟨rfl, rfl, rfl, rfl, rfl⟩

/-- Claim C3: after any sequence of subscribe/unsubscribe/disconnect
operations from the empty registry, a socket id is in `subscriptions[sym]` iff
`sym` is in `socketSubscriptions[socketId]` — the two maps are mirror
images at every quiescent point. -/
theorem registry_symmetry (ws : Option ReadyState) (ops : List Op)
    (productId socketId : String) :
    inBySymbol (runOps ws ops) productId socketId =
      inBySubscriber (runOps ws ops) socketId productId :=
  symmetric_runOps ws ops productId socketId

/-- Claim C4: after any sequence of subscribe/unsubscribe/disconnect
operations from the empty registry, no key of either map holds an empty set —
empty entries are deleted immediately. -/
theorem registry_no_empty_entries (ws : Option ReadyState) (ops : List Op) (k : String) :
    entryNonEmpty (mapGet (runOps ws ops).subscriptions k) = true ∧
    entryNonEmpty (mapGet (runOps ws ops).socketSubscriptions k) = true :=
  noEmpty_runOps ws ops k

/-- Claim C5: with the upstream socket `OPEN` and symbol `s` having exactly
the two subscribers `A` and `B`, A's unsubscribe sends no upstream
unsubscribe message, and B's subsequent unsubscribe sends exactly one. -/
theorem last_unsubscribe_correct (st : Registry) (A B s : String)
    (hBA : ¬B = A) (h : mapGet st.subscriptions s = some [A, B]) :
    (onUnsubscribe st (some ReadyState.OPEN) A s).2 = [] ∧
    (onUnsubscribe (onUnsubscribe st (some ReadyState.OPEN) A s).1
      (some ReadyState.OPEN) B s).2 = [mkUnsubscribeMsg s] := by
  have hd1 : setDelete [A, B] A = [B] := by
    simp [setDelete, beq_false_of_ne B A hBA]
  have h1 : mapGet (removeSubscription st A s).subscriptions s = some [B] := by
    rw [mapGet_removeSubscription_subs_self, h]
    simp [hd1]
  have h2 : mapGet (removeSubscription (removeSubscription st A s) B s).subscriptions s
      = none := by
    rw [mapGet_removeSubscription_subs_self, h1]
    simp [setDelete]
  constructor
  · show unsubscribeFromCoinbase (removeSubscription st A s) (some ReadyState.OPEN) s = []
    rw [unsubscribeFromCoinbase_open, h1]
    simp
  · show unsubscribeFromCoinbase (removeSubscription (removeSubscription st A s) B s)
      (some ReadyState.OPEN) s = [mkUnsubscribeMsg s]
    rw [unsubscribeFromCoinbase_open, h2]
    simp

/-- The registry in which `"A"` and `"B"` both subscribed to `"BTC-USD"`. -/
def regTwoSubs : Registry :=
  runOps (some ReadyState.OPEN) [Op.sub "A" "BTC-USD", Op.sub "B" "BTC-USD"]

/-- Witness for `last_unsubscribe_correct` at a concrete registry. -/
theorem last_unsubscribe_correct_witness :
    (onUnsubscribe regTwoSubs (some ReadyState.OPEN) "A" "BTC-USD").2 = [] ∧
    (onUnsubscribe (onUnsubscribe regTwoSubs (some ReadyState.OPEN) "A" "BTC-USD").1
      (some ReadyState.OPEN) "B" "BTC-USD").2 = [mkUnsubscribeMsg "BTC-USD"] :=
  last_unsubscribe_correct regTwoSubs "A" "B" "BTC-USD" (by decide) (by decide)

/-- Claim C6: with the upstream socket `OPEN`, in a symmetric registry where
subscriber `sock` is recorded with product list `L` (duplicate-free, as a JS
`Set` snapshot is), `cleanupClient sock` removes `sock` from every symbol's
subscriber set, deletes `sock`'s own record, and sends exactly one upstream
unsubscribe for each of `sock`'s products left with zero remaining
subscribers — and none for a product that still has another subscriber. -/
theorem cleanupClient_correct (st : Registry) (sock : String) (L : List String)
    (hsym : Symmetric st) (hL : mapGet st.socketSubscriptions sock = some L)
    (hnd : listNodup L = true) :
    (∀ sym, inBySymbol (cleanupClient st (some ReadyState.OPEN) sock).1 sym sock = false) ∧
    mapGet (cleanupClient st (some ReadyState.OPEN) sock).1.socketSubscriptions sock = none ∧
    (cleanupClient st (some ReadyState.OPEN) sock).2 =
      (L.filter (fun pid =>
        (setDelete ((mapGet st.subscriptions pid).getD []) sock).length == 0)).map
        mkUnsubscribeMsg := by
  refine ⟨?_, ?_, ?_⟩
  · intro sym
    rw [cleanupClient_fst, inBySymbol_deleteSockRecord, inBySymbol_cleanupFold, hL]
    cases hb : setHas L sym
    · have hfalse : inBySymbol st sym sock = false := by
        rw [hsym sym sock]
        unfold inBySubscriber
        rw [hL]
        simpa using hb
      simp [hfalse]
    · simp [hb]
  · rw [cleanupClient_fst]
    exact mapGet_mapDelete_self _ _
  · rw [cleanupClient_snd, hL]
    exact cleanupFold_msgs sock L st hnd

/-- The registry in which `"A"` subscribed to `"BTC-USD"` and `"ETH-USD"`,
and `"B"` subscribed to `"ETH-USD"` as well. -/
def regDisc : Registry :=
  runOps (some ReadyState.OPEN)
    [Op.sub "A" "BTC-USD", Op.sub "A" "ETH-USD", Op.sub "B" "ETH-USD"]

/-- Witness for `cleanupClient_correct`: disconnecting `"A"` unsubscribes
upstream only from `"BTC-USD"` (`"ETH-USD"` still has subscriber `"B"`). -/
theorem cleanupClient_correct_witness :
    inBySymbol (cleanupClient regDisc (some ReadyState.OPEN) "A").1 "ETH-USD" "A" = false ∧
    mapGet (cleanupClient regDisc (some ReadyState.OPEN) "A").1.socketSubscriptions "A" =
      none ∧
    (cleanupClient regDisc (some ReadyState.OPEN) "A").2 = [mkUnsubscribeMsg "BTC-USD"] := by
  have T := cleanupClient_correct regDisc "A" ["BTC-USD", "ETH-USD"]
    (symmetric_runOps (some ReadyState.OPEN)
      [Op.sub "A" "BTC-USD", Op.sub "A" "ETH-USD", Op.sub "B" "ETH-USD"])
    (by decide) (by decide)
  refine ⟨T.1 "ETH-USD", T.2.1, ?_⟩
  rw [T.2.2]
  decide

/-- Claim C7: from `reconnectAttempts = 0`, five consecutive upstream close
events schedule reconnect delays `5000, 10000, 20000, 40000, 80000` (the
attempt counter incremented by each timer callback), and the sixth consecutive
close event, at `reconnectAttempts = 5 = maxReconnectAttempts`, schedules no
reconnect. -/
theorem backoff_schedule :
    runCloses 6 ⟨some ReadyState.CLOSED, 0⟩ =
      (⟨some ReadyState.CONNECTING, 5⟩, [5000, 10000, 20000, 40000, 80000]) ∧
    onUpstreamClose ⟨some ReadyState.CONNECTING, 5⟩ = none := by
  constructor
  · decide
  · decide

/-- Claim C8: a ticker message for symbol `s` (nonempty, with all of `s`'s
registered subscribers still connected) is delivered to exactly the
subscribers in `subscriptions[s]`: membership of any socket in the delivery
target list coincides with its membership in the registry's set for `s`, so
subscribers of other symbols receive nothing. -/
theorem ticker_routing (st : Registry) (live : List String) (s sock : String)
    (hs : ¬s = "") (hlive : allLive st live s = true) :
    setHas ((handleTickerMessage st live (some s)).map Prod.fst) sock =
      inBySymbol st s sock := by
  unfold handleTickerMessage
  simp only [beq_false_of_ne s "" hs, Bool.false_eq_true, if_false]
  cases hg : mapGet st.subscriptions s with
  | none => simp [inBySymbol, hg, setHas]
  | some subs =>
      by_cases hlen : (subs.length == 0) = true
      · have hnil : subs = [] := List.length_eq_zero.mp (by simpa using hlen)
        subst hnil
        simp [inBySymbol, hg, setHas]
      · simp only [Bool.not_eq_true] at hlen
        simp only [hlen, Bool.false_eq_true, if_false]
        rw [List.map_map]
        simp only [Function.comp_def, List.map_id']
        rw [setHas_filter]
        unfold inBySymbol
        rw [hg]
        cases hb : setHas subs sock
        · simp [hb]
        · have hmem : sock ∈ subs := (setHas_eq_true_iff_mem subs sock).mp hb
          have hl : setHas live sock = true := by
            have ha := hlive
            unfold allLive at ha
            rw [hg] at ha
            exact List.all_eq_true.mp (by simpa using ha) sock hmem
          simp [hb, hl]

/-- A registry with `"S1"` subscribed to `"ETH-USD"` and `"S2"` to
`"BTC-USD"`. -/
def regRoute : Registry :=
  ⟨[("ETH-USD", ["S1"]), ("BTC-USD", ["S2"])], [("S1", ["ETH-USD"]), ("S2", ["BTC-USD"])]⟩

/-- Witness for `ticker_routing`: the `"ETH-USD"` ticker reaches `"S1"` (its
subscriber) and not `"S2"` (a subscriber of another symbol only). -/
theorem ticker_routing_witness :
    setHas ((handleTickerMessage regRoute ["S1", "S2"] (some "ETH-USD")).map Prod.fst) "S1" =
      inBySymbol regRoute "ETH-USD" "S1" ∧
    setHas ((handleTickerMessage regRoute ["S1", "S2"] (some "ETH-USD")).map Prod.fst) "S2" =
      inBySymbol regRoute "ETH-USD" "S2" :=
  ⟨ticker_routing regRoute ["S1", "S2"] "ETH-USD" "S1" (by decide) (by decide),
   ticker_routing regRoute ["S1", "S2"] "ETH-USD" "S2" (by decide) (by decide)⟩

/-- Claim C9: an upstream payload on which `JSON.parse` throws is caught by
the message handler's `try/catch`: the handler returns normally, delivers no
event to any subscriber, and leaves the registry unchanged. -/
theorem malformed_message_dropped (st : Registry) (live : List String) :
    onUpstreamMessage st live none = (st, []) := rfl

/-- Claim C10: an upstream message of type `"ticker"` whose `product_id` is
absent or the empty string is falsy in the guard
`parsed.type === "ticker" && parsed.product_id`, so nothing is delivered and
the registry is unchanged — the message is silently dropped. -/
theorem ticker_without_product_id_dropped (st : Registry) (live : List String)
    (ch : Option (List Channel)) :
    onUpstreamMessage st live (some ⟨some "ticker", none, ch⟩) = (st, []) ∧
    onUpstreamMessage st live (some ⟨some "ticker", some "", ch⟩) = (st, []) :=
  ⟨rfl, rfl⟩

end CoinbaseRelay
